import Mathlib

/-!
Verification development for the ResearchChatbot Flask application
(`app.py`).  The Python functions `chunk_text`, `retrieve_relevant_chunks`,
`upload_pdf`, `pdf_chat` and `logout`, and the in-memory per-user store
`user_pdf_data`, are embedded shallowly below.

Modelling decisions:
* Text is `List Char`; Python slicing `text[start:end]` (including the
  negative-index convention) is `pySlice`.
* The `while` loop of `chunk_text` may diverge (nothing guards
  `overlap >= chunk_size`), so it is embedded with explicit fuel:
  `chunkTextLoop ... fuel start = none` for every `fuel` means the loop
  never exits from offset `start`.  The loop offset is `Int`, as in
  Python, where `start = end - overlap` can go negative.
* Embedding vectors are `List ℚ`; the OpenAI embedding endpoint and
  sklearn's `cosine_similarity` are external services, passed in as
  oracle arguments (`Option` results for the fallible embedding calls,
  a similarity function `sim` for `cosine_similarity`).
* The store `user_pdf_data` is `String → Option PdfData`; MongoDB
  writes and the chat-completion call do not touch the store and are
  omitted.
-/

/-- Clamp a Python index `i` into `[0, len]`: negative indices count from
the end of the sequence, as in a Python slice bound. -/
def pyIndex (len : Nat) (i : Int) : Nat :=
  if i < 0 then ((len : Int) + i).toNat else min i.toNat len

/-- Python slice `s[i:j]`. -/
def pySlice (s : List Char) (i j : Int) : List Char :=
  (s.take (pyIndex s.length j)).drop (pyIndex s.length i)

/-- The `while start < len(text)` loop of `chunk_text` (app.py lines
60-64), unrolled with fuel.  Each iteration appends `text[start:start+size]`
and sets `start = (start + size) - overlap`, exactly as the Python does
(`end = start + chunk_size; chunk = text[start:end]; start = end - overlap`).
`none` means the given fuel was not enough to reach the loop exit. -/
def chunkTextLoop (text : List Char) (size overlap : Nat) :
    Nat → Int → Option (List (List Char))
  | 0, _ => none
  | fuel + 1, start =>
    if start < (text.length : Int) then
      (chunkTextLoop text size overlap fuel (start + (size : Int) - (overlap : Int))).map
        (fun rest => pySlice text start (start + (size : Int)) :: rest)
    else
      some []

/-- `chunk_text(text, chunk_size, overlap)` (app.py lines 56-65), run with
fuel `len(text) + 1`, which suffices whenever `overlap < size` (lemma
`chunkTextLoop_enough_fuel`); when the loop diverges the result is `none`. -/
def chunk_text (text : List Char) (size overlap : Nat) : Option (List (List Char)) :=
  chunkTextLoop text size overlap (text.length + 1) 0

/-- The chunks `upload_pdf` computes: `chunk_text(text)` with the default
parameters `chunk_size=1000, overlap=200` (app.py line 244).  With these
parameters the loop always terminates, so `getD []` never fires
(lemma `pdfChunks_eq`). -/
def pdfChunks (text : List Char) : List (List Char) :=
  (chunk_text text 1000 200).getD []

theorem chunkTextLoop_stuck (text : List Char) (size overlap : Nat)
    (hov : size ≤ overlap) (hne : 0 < text.length) :
    ∀ (fuel : Nat) (start : Int), start ≤ 0 →
      chunkTextLoop text size overlap fuel start = none := by
  intro fuel
  induction fuel with
  | zero => intro start _; rfl
  | succ n ih =>
    intro start hstart
    have hlt : start < (text.length : Int) := by
      have : (0 : Int) < (text.length : Int) := by exact_mod_cast hne
      omega
    have hnext : start + (size : Int) - (overlap : Int) ≤ 0 := by
      have : (size : Int) ≤ (overlap : Int) := by exact_mod_cast hov
      omega
    simp only [chunkTextLoop, if_pos hlt, ih _ hnext, Option.map_none']

theorem chunkTextLoop_enough_fuel (text : List Char) (size overlap : Nat)
    (hov : overlap < size) :
    ∀ (fuel : Nat) (start : Int), max 0 ((text.length : Int) - start) < (fuel : Int) →
      ∃ r, chunkTextLoop text size overlap fuel start = some r := by
  intro fuel
  induction fuel with
  | zero => intro start h; omega
  | succ n ih =>
    intro start h
    by_cases hlt : start < (text.length : Int)
    · have hstep : (1 : Int) ≤ (size : Int) - (overlap : Int) := by
        have : (overlap : Int) < (size : Int) := by exact_mod_cast hov
        omega
      obtain ⟨r, hr⟩ := ih (start + (size : Int) - (overlap : Int)) (by omega)
      exact ⟨pySlice text start (start + (size : Int)) :: r, by
        simp only [chunkTextLoop, if_pos hlt, hr, Option.map_some']⟩
    · exact ⟨[], by simp only [chunkTextLoop, if_neg hlt]⟩

theorem chunk_text_some (text : List Char) (size overlap : Nat)
    (hov : overlap < size) : ∃ r, chunk_text text size overlap = some r := by
  exact chunkTextLoop_enough_fuel text size overlap hov (text.length + 1) 0 (by push_cast; omega)

theorem pdfChunks_eq (text : List Char) :
    some (pdfChunks text) = chunk_text text 1000 200 := by
  obtain ⟨r, hr⟩ := chunk_text_some text 1000 200 (by omega)
  simp [pdfChunks, hr]

theorem chunkTextLoop_exit (text : List Char) (size overlap fuel : Nat) (start : Int)
    (h : ¬ start < (text.length : Int)) (hf : 0 < fuel) :
    chunkTextLoop text size overlap fuel start = some [] := by
  cases fuel with
  | zero => omega
  | succ n => simp only [chunkTextLoop, if_neg h]

/-- C1: with `overlap >= size` and a non-empty text, the `while` loop of
`chunk_text` never reaches its exit condition, whatever the number of
iterations: the offset never advances past 0 (`start = start + size - overlap
<= start`), so no amount of fuel yields a result.  The code raises no
`InvalidConfiguration` error — `chunk_text` has no error path at all. -/
theorem chunk_text_overlap_ge_size_diverges (text : List Char) (size overlap : Nat)
    (hov : size ≤ overlap) (hne : text ≠ []) :
    ∀ fuel : Nat, chunkTextLoop text size overlap fuel 0 = none :=
  fun fuel =>
    chunkTextLoop_stuck text size overlap hov (List.length_pos.mpr hne) fuel 0 le_rfl

theorem chunk_text_overlap_ge_size_diverges_witness :
    (100 : Nat) ≤ 100 ∧ "A".toList ≠ [] ∧
      chunkTextLoop "A".toList 100 100 1000 0 = none :=
  ⟨by decide, by decide,
    chunk_text_overlap_ge_size_diverges "A".toList 100 100 (by decide) (by decide) 1000⟩

/-- C3 counterexample: chunking "ABCDEFGHIJ" with size=4, overlap=1 does
not produce the three chunks the spec lists — the loop keeps running while
`start < len(text)`, and after emitting at offsets 0, 3, 6 the offset is
9 < 10, so a fourth chunk "J" is emitted. -/
theorem chunk_text_example_not_three_chunks :
    chunk_text "ABCDEFGHIJ".toList 4 1 ≠
      some ["ABCD".toList, "DEFG".toList, "GHIJ".toList] := by decide

/-- C3 amended: chunking "ABCDEFGHIJ" (length 10) with size=4, overlap=1
produces exactly the four chunks ["ABCD", "DEFG", "GHIJ", "J"]: the start
offset advances by size - overlap = 3 each step (0, 3, 6, 9), and the loop
also emits the tail chunk at offset 9 since 9 < 10. -/
theorem chunk_text_example_four_chunks :
    chunk_text "ABCDEFGHIJ".toList 4 1 =
      some ["ABCD".toList, "DEFG".toList, "GHIJ".toList, "J".toList] := by decide

/-- C4 counterexample: "ABCDE" (length 5) is strictly shorter than
size=6, and overlap=4 is a valid configuration (overlap < size), yet
chunking yields three chunks, not one: the offset advances by
size - overlap = 2, which is still inside the text. -/
theorem chunk_text_short_text_not_one_chunk :
    chunk_text "ABCDE".toList 6 4 = some ["ABCDE".toList, "CDE".toList, "E".toList] ∧
    chunk_text "ABCDE".toList 6 4 ≠ some ["ABCDE".toList] := by decide

/-- C4 amended: for every valid configuration (overlap < size), chunking
the empty text returns an empty sequence, and chunking a non-empty text
whose length is at most size - overlap returns exactly one chunk equal to
the whole text.  (A text merely shorter than size can still produce several
chunks, as soon as its length exceeds size - overlap.) -/
theorem chunk_text_empty_and_short (size overlap : Nat) (text : List Char)
    (hov : overlap < size) :
    chunk_text ([] : List Char) size overlap = some [] ∧
    (text ≠ [] → text.length ≤ size - overlap →
      chunk_text text size overlap = some [text]) := by
  constructor
  · simp [chunk_text, chunkTextLoop]
  · intro hne hlen
    have hn : 1 ≤ text.length := List.length_pos.mpr hne
    have hlt0 : (0 : Int) < (text.length : Int) := by exact_mod_cast hn
    have hstop : ¬ ((0 : Int) + (size : Int) - (overlap : Int) < (text.length : Int)) := by
      omega
    have h0 : pyIndex text.length 0 = 0 := by
      rw [pyIndex, if_neg (by omega)]
      omega
    have hsz : pyIndex text.length ((0 : Int) + (size : Int)) = text.length := by
      rw [pyIndex, if_neg (by omega)]
      omega
    have hslice : pySlice text 0 ((0 : Int) + (size : Int)) = text := by
      rw [pySlice, h0, hsz, List.drop_zero, List.take_length]
    unfold chunk_text
    simp only [chunkTextLoop]
    rw [if_pos hlt0,
      chunkTextLoop_exit text size overlap text.length _ hstop (by omega),
      Option.map_some', hslice]

theorem chunk_text_empty_and_short_witness :
    chunk_text "AB".toList 4 1 = some ["AB".toList] :=
  (chunk_text_empty_and_short 4 1 "AB".toList (by decide)).2 (by decide) (by decide)

/-- Insert index `i` into an already sorted index list, after every index
whose similarity is `<=` the similarity of `i`.  Folding this over the
indices in increasing order is a stable ascending sort. -/
def insertIdx (sims : List ℚ) (i : Nat) : List Nat → List Nat
  | [] => [i]
  | j :: rest =>
    if sims.getD i 0 < sims.getD j 0 then i :: j :: rest else j :: insertIdx sims i rest

/-- `np.argsort(similarities)` (app.py line 99): the indices
`0 .. len-1` sorted by similarity, ascending; equal similarities keep
ascending index order (stable, as numpy's sort of a small array is). -/
def argsort (sims : List ℚ) : List Nat :=
  (List.range sims.length).foldl (fun acc i => insertIdx sims i acc) []

/-- The Python slice `xs[-k:]` for a non-negative `k`: the last
`min(k, len(xs))` elements when `k >= 1`, but the WHOLE list when `k = 0`
(Python reads `xs[-0:]` as `xs[0:]`). -/
def pyTail (xs : List Nat) (k : Nat) : List Nat :=
  if k = 0 then xs else xs.drop (xs.length - k)

/-- `np.argsort(similarities)[-top_k:][::-1]` (app.py line 99): the
index selection step of `retrieve_relevant_chunks`. -/
def topK (sims : List ℚ) (k : Nat) : List Nat :=
  (pyTail (argsort sims) k).reverse

theorem insertIdx_length (sims : List ℚ) (i : Nat) :
    ∀ acc : List Nat, (insertIdx sims i acc).length = acc.length + 1 := by
  intro acc
  induction acc with
  | nil => rfl
  | cons j rest ih =>
    simp only [insertIdx]
    by_cases h : sims.getD i 0 < sims.getD j 0
    · rw [if_pos h]; simp
    · rw [if_neg h]; simp [ih]

theorem insertIdx_foldl_length (sims : List ℚ) :
    ∀ (l : List Nat) (acc : List Nat),
      (l.foldl (fun a i => insertIdx sims i a) acc).length = acc.length + l.length := by
  intro l
  induction l with
  | nil => intro acc; rfl
  | cons i rest ih =>
    intro acc
    rw [List.foldl_cons, ih, insertIdx_length]
    simp only [List.length_cons]
    omega

theorem argsort_length (sims : List ℚ) : (argsort sims).length = sims.length := by
  rw [argsort, insertIdx_foldl_length]
  simp

theorem mem_insertIdx (sims : List ℚ) (i j : Nat) :
    ∀ acc : List Nat, j ∈ insertIdx sims i acc → j = i ∨ j ∈ acc := by
  intro acc
  induction acc with
  | nil => simp [insertIdx]
  | cons a rest ih =>
    by_cases h : sims.getD i 0 < sims.getD a 0
    · simp only [insertIdx, if_pos h, List.mem_cons]
      tauto
    · simp only [insertIdx, if_neg h, List.mem_cons]
      intro hj
      rcases hj with hj | hj
      · tauto
      · rcases ih hj with hj | hj <;> tauto

theorem mem_insertIdx_foldl (sims : List ℚ) (j : Nat) :
    ∀ (l : List Nat) (acc : List Nat),
      j ∈ l.foldl (fun a i => insertIdx sims i a) acc → j ∈ acc ∨ j ∈ l := by
  intro l
  induction l with
  | nil => intro acc h; exact Or.inl h
  | cons i rest ih =>
    intro acc h
    rw [List.foldl_cons] at h
    rcases ih _ h with h2 | h2
    · rcases mem_insertIdx sims i j acc h2 with h3 | h3
      · right; simp [h3]
      · exact Or.inl h3
    · right; simp [h2]

theorem mem_argsort_lt (sims : List ℚ) (j : Nat) (h : j ∈ argsort sims) :
    j < sims.length := by
  rcases mem_insertIdx_foldl sims j (List.range sims.length) [] h with h2 | h2
  · simp at h2
  · exact List.mem_range.mp h2

theorem mem_pyTail (xs : List Nat) (k : Nat) (j : Nat) (h : j ∈ pyTail xs k) :
    j ∈ xs := by
  rw [pyTail] at h
  by_cases hk : k = 0
  · rw [if_pos hk] at h; exact h
  · rw [if_neg hk] at h; exact List.mem_of_mem_drop h

theorem mem_topK_lt (sims : List ℚ) (k : Nat) (j : Nat) (h : j ∈ topK sims k) :
    j < sims.length := by
  rw [topK, List.mem_reverse] at h
  exact mem_argsort_lt sims j (mem_pyTail _ k j h)

theorem pyTail_length (xs : List Nat) (k : Nat) (hk : 1 ≤ k) :
    (pyTail xs k).length = min k xs.length := by
  rw [pyTail, if_neg (by omega), List.length_drop]
  omega

/-- A per-user entry of `user_pdf_data` (app.py lines 255-259): the
chunk list, the parallel embedding matrix, and the `loaded` flag. -/
structure PdfData where
  chunks : List (List Char)
  embeddings : List (List ℚ)
  loaded : Bool
deriving DecidableEq

/-- The in-memory store `user_pdf_data` (app.py line 46), keyed by user id. -/
def Store : Type := String → Option PdfData

/-- The store the application starts with: `user_pdf_data = {}`. -/
def emptyStore : Store := fun _ => none

/-- Concrete similarity oracle for witnesses: reports similarity 1.0 —
the exact value `cosine_similarity` yields on a corpus vector identical
to the query vector. -/
def simOne (_q _v : List ℚ) : ℚ := 1

/-- `retrieve_relevant_chunks(user_id, query, top_k)` (app.py lines
79-102).  `sim` stands for sklearn's `cosine_similarity` against the
query embedding; `queryEmbed` is the result of `get_embeddings([query])`
(`none` when that call fails).  Early returns: unknown user, `loaded`
false or empty embedding matrix, failed query embedding.  Otherwise the
chunks at `np.argsort(similarities)[-top_k:][::-1]` are returned. -/
def retrieve_relevant_chunks (sim : List ℚ → List ℚ → ℚ) (store : Store)
    (uid : String) (queryEmbed : Option (List ℚ)) (top_k : Nat) : List (List Char) :=
  match store uid with
  | none => []
  | some pd =>
    if pd.loaded = false ∨ pd.embeddings.length = 0 then []
    else
      match queryEmbed with
      | none => []
      | some q =>
        (topK (pd.embeddings.map (sim q)) top_k).map (fun i => pd.chunks.getD i [])

/-- Outcome of `upload_pdf` as far as the store is concerned. -/
inductive UploadResp where
  | noText
  | embedFailed
  | okUpload (nchunks : Nat)
deriving DecidableEq

/-- `upload_pdf()` (app.py lines 237-259): reject whitespace-only text
(`if not text.strip()`), chunk with the default parameters, call the
embedding provider (`embedResult` is its response, `none` for a raised
error turned into `None` by `get_embeddings`; the empty list is also
rejected, as `if not embeddings:` is true for `[]`), and only on success
overwrite the user's entry.  MongoDB metadata writes are omitted: they do
not touch `user_pdf_data`. -/
def upload_pdf (store : Store) (uid : String) (text : List Char)
    (embedResult : Option (List (List ℚ))) : UploadResp × Store :=
  if text.all Char.isWhitespace then (UploadResp.noText, store)
  else
    match embedResult with
    | none => (UploadResp.embedFailed, store)
    | some embs =>
      if embs = [] then (UploadResp.embedFailed, store)
      else
        (UploadResp.okUpload (pdfChunks text).length,
          fun v => if v = uid then some ⟨pdfChunks text, embs, true⟩ else store v)

/-- Outcome of `pdf_chat`; `answerCtx` carries the retrieved context
chunks (the chat-completion call that turns them into prose is external). -/
inductive ChatResp where
  | noDocument
  | noMessage
  | retrievalFailed
  | answerCtx (relevant : List (List Char))
deriving DecidableEq

/-- `pdf_chat()` (app.py lines 286-359): reject users with no loaded
entry (`user_id not in user_pdf_data or not ...['loaded']`), reject an
empty message, then retrieve with `top_k=3`; an empty retrieval is the
500 error.  The store is only read, never written. -/
def pdf_chat (sim : List ℚ → List ℚ → ℚ) (store : Store) (uid : String)
    (message : List Char) (queryEmbed : Option (List ℚ)) : ChatResp × Store :=
  match store uid with
  | none => (ChatResp.noDocument, store)
  | some pd =>
    if pd.loaded = false then (ChatResp.noDocument, store)
    else if message = [] then (ChatResp.noMessage, store)
    else if retrieve_relevant_chunks sim store uid queryEmbed 3 = [] then
      (ChatResp.retrievalFailed, store)
    else
      (ChatResp.answerCtx (retrieve_relevant_chunks sim store uid queryEmbed 3), store)

/-- `logout()` (app.py lines 208-214): `session.get('user_id')` may be
absent (`none`) or the empty string — both are falsy, in which case the
store is untouched; otherwise the user's entry is deleted. -/
def logout (store : Store) (uid : Option String) : Store :=
  match uid with
  | none => store
  | some u => if u = "" then store else fun v => if v = u then none else store v

/-- One request against the application, as far as `user_pdf_data` goes. -/
inductive Op where
  | uploadOp (uid : String) (text : List Char) (embedResult : Option (List (List ℚ)))
  | chatOp (uid : String) (message : List Char) (queryEmbed : Option (List ℚ))
  | logoutOp (uid : Option String)

/-- Store effect of one request. -/
def step (sim : List ℚ → List ℚ → ℚ) (store : Store) : Op → Store
  | Op.uploadOp uid text r => (upload_pdf store uid text r).2
  | Op.chatOp uid msg qe => (pdf_chat sim store uid msg qe).2
  | Op.logoutOp uid => logout store uid

/-- Store after a sequence of requests. -/
def run (sim : List ℚ → List ℚ → ℚ) (store : Store) (ops : List Op) : Store :=
  ops.foldl (step sim) store

/-- A store with one user "u" whose two stored vectors are both `[1]`,
identical to the query vector `[1]` used below (cosine similarity of the
unit vector `[1]` with itself is exactly its dot product, 1). -/
def tieStore : Store :=
  fun v => if v = "u" then some ⟨["a".toList, "b".toList], [[1], [1]], true⟩ else none

/-- C2 counterexample: with two corpus vectors identical to the query
(both similarity 1.0) and k=2, retrieval returns the chunks in index
order [1, 0], not [0, 1]: `np.argsort` puts the tied indices in ascending
order and the trailing `[::-1]` then reverses them. -/
theorem retrieve_tie_order_not_ascending :
    retrieve_relevant_chunks simOne tieStore "u" (some [1]) 2 =
      ["b".toList, "a".toList] ∧
    retrieve_relevant_chunks simOne tieStore "u" (some [1]) 2 ≠
      ["a".toList, "b".toList] := by decide

/-- C2 amended: retrieval is deterministic, but equal similarities come
out in DESCENDING original corpus index order: for any similarity oracle,
any query, and a corpus of two identical vectors (hence two tied
similarities) with k=2, the chunks are returned in index order [1, 0]. -/
theorem retrieve_two_identical_descending (sim : List ℚ → List ℚ → ℚ)
    (store : Store) (uid : String) (q v : List ℚ) (c0 c1 : List Char)
    (h : store uid = some ⟨[c0, c1], [v, v], true⟩) :
    retrieve_relevant_chunks sim store uid (some q) 2 = [c1, c0] := by
  have hnot : ¬ (List.getD [sim q v, sim q v] 1 0 < List.getD [sim q v, sim q v] 0 0) :=
    lt_irrefl (sim q v)
  have hargsort : argsort [sim q v, sim q v] = [0, 1] := by
    unfold argsort
    rw [show List.range [sim q v, sim q v].length = [0, 1] from rfl]
    simp only [List.foldl_cons, List.foldl_nil]
    rw [show insertIdx [sim q v, sim q v] 0 [] = [0] from rfl]
    simp only [insertIdx]
    rw [if_neg hnot]
  simp only [retrieve_relevant_chunks, h]
  rw [if_neg (by simp)]
  show (topK ([v, v].map (sim q)) 2).map _ = [c1, c0]
  rw [show ([v, v].map (sim q)) = [sim q v, sim q v] from rfl]
  rw [topK, hargsort]
  rfl

/-- A second tied store, for the C2 witness. -/
def tieStore2 : Store :=
  fun v => if v = "u2" then some ⟨["c".toList, "d".toList], [[2], [2]], true⟩ else none

theorem retrieve_two_identical_descending_witness :
    retrieve_relevant_chunks simOne tieStore2 "u2"
      (some [1]) 2 = ["d".toList, "c".toList] :=
  retrieve_two_identical_descending simOne tieStore2 "u2" [1] [2]
    "c".toList "d".toList (by decide)

/-- C5 counterexample: with `top_k = 0` and a non-empty corpus the code
does not return an empty sequence: Python reads the slice
`argsort(similarities)[-0:]` as the WHOLE array, so every index — and
hence every chunk — comes back (in reversed argsort order). -/
theorem topK_zero_not_empty :
    topK [(1 : ℚ)] 0 = [0] ∧ topK [(1 : ℚ)] 0 ≠ [] ∧
    retrieve_relevant_chunks simOne tieStore "u" (some [1]) 0 =
      ["b".toList, "a".toList] := by decide

/-- C5 amended: `topK` returns exactly min(k, len(corpus)) indices for
every k >= 1, and an empty corpus gives an empty sequence (both through
`topK` itself and through the early return of `retrieve_relevant_chunks`
on an empty embedding matrix); but k = 0 returns ALL the indices, in
reversed argsort order, because Python's `[-0:]` slice is the whole
array. -/
theorem topK_count (sims : List ℚ) (k : Nat) (hk : 1 ≤ k) :
    (topK sims k).length = min k sims.length ∧
    topK ([] : List ℚ) k = [] ∧
    topK sims 0 = (argsort sims).reverse ∧
    (∀ (sim : List ℚ → List ℚ → ℚ) (store : Store) (uid : String)
        (qe : Option (List ℚ)) (pd : PdfData), store uid = some pd →
        pd.embeddings = [] → retrieve_relevant_chunks sim store uid qe k = []) := by
  refine ⟨?_, ?_, ?_, ?_⟩
  · rw [topK, List.length_reverse, pyTail_length _ _ hk, argsort_length]
  · have h0 : argsort ([] : List ℚ) = [] := rfl
    rw [topK, h0, pyTail]
    simp
  · rw [topK, pyTail, if_pos rfl]
  · intro sim store uid qe pd h he
    simp only [retrieve_relevant_chunks, h]
    rw [if_pos (Or.inr (by rw [he]; rfl))]

theorem topK_count_witness :
    (topK [(1 : ℚ), 1] 1).length = min 1 [(1 : ℚ), 1].length :=
  (topK_count [(1 : ℚ), 1] 1 (by decide)).1

theorem getD_mem_of_lt {α : Type} (l : List α) (i : Nat) (d : α)
    (h : i < l.length) : l.getD i d ∈ l := by
  induction l generalizing i with
  | nil => simp at h
  | cons a t ih =>
    cases i with
    | zero => simp [List.getD]
    | succ n =>
      have : t.getD n d ∈ t := ih n (by simp at h; omega)
      simp only [List.getD_cons_succ, List.mem_cons]
      exact Or.inr this

theorem pdf_chat_store_eq (sim : List ℚ → List ℚ → ℚ) (store : Store)
    (uid : String) (msg : List Char) (qe : Option (List ℚ)) :
    (pdf_chat sim store uid msg qe).2 = store := by
  unfold pdf_chat
  cases store uid with
  | none => rfl
  | some pd =>
    simp only []
    split_ifs <;> rfl

theorem upload_pdf_frame (store : Store) (uid : String) (text : List Char)
    (r : Option (List (List ℚ))) (v : String) (hv : v ≠ uid) :
    (upload_pdf store uid text r).2 v = store v := by
  unfold upload_pdf
  by_cases hb : text.all Char.isWhitespace
  · rw [if_pos hb]
  · rw [if_neg hb]
    cases r with
    | none => rfl
    | some embs =>
      simp only []
      by_cases he : embs = []
      · rw [if_pos he]
      · rw [if_neg he]
        exact if_neg hv

theorem upload_pdf_failure_store (store : Store) (uid : String) (text : List Char)
    (r : Option (List (List ℚ)))
    (hfail : text.all Char.isWhitespace = true ∨ r = none ∨ r = some []) :
    (upload_pdf store uid text r).2 = store := by
  unfold upload_pdf
  by_cases hb : text.all Char.isWhitespace
  · rw [if_pos hb]
  · rw [if_neg hb]
    rcases hfail with h | h | h
    · exact absurd h hb
    · subst h; rfl
    · subst h
      simp only []
      rw [if_pos trivial]

theorem logout_frame (store : Store) (u v : String) (hv : v ≠ u) :
    logout store (some u) v = store v := by
  unfold logout
  simp only []
  by_cases he : u = ""
  · rw [if_pos he]
  · rw [if_neg he]
    exact if_neg hv

theorem logout_preserves_none (store : Store) (o : Option String) (uid : String)
    (h : store uid = none) : logout store o uid = none := by
  unfold logout
  cases o with
  | none => exact h
  | some u =>
    simp only []
    by_cases he : u = ""
    · rw [if_pos he]; exact h
    · rw [if_neg he]
      by_cases hu : uid = u
      · rw [if_pos hu]
      · rw [if_neg hu]; exact h

/-- C6: when the embedding provider fails (`get_embeddings` returns
`None`) during an upload of extractable text, `upload_pdf` reports the
failure (the 500 "Failed to generate embeddings" response) and the whole
store `user_pdf_data` is unchanged: a prior entry for the user — or for
anyone else — is exactly what it was, and a user with no entry still has
none. -/
theorem upload_embed_failure_preserves_store (store : Store) (uid : String)
    (text : List Char) (hb : ¬ text.all Char.isWhitespace = true) :
    (upload_pdf store uid text none).1 = UploadResp.embedFailed ∧
    (upload_pdf store uid text none).2 = store := by
  constructor
  · unfold upload_pdf
    rw [if_neg hb]
  · exact upload_pdf_failure_store store uid text none (Or.inr (Or.inl rfl))

theorem upload_embed_failure_preserves_store_witness :
    (upload_pdf tieStore "u" "hello".toList none).1 = UploadResp.embedFailed ∧
    (upload_pdf tieStore "u" "hello".toList none).2 = tieStore :=
  upload_embed_failure_preserves_store tieStore "u" "hello".toList (by decide)

/-- C10: every `pdf_chat` (query) leaves the whole store unchanged — it
only reads `user_pdf_data` — and an `upload_pdf` or `logout` performed
for one user leaves every other user's entry unchanged. -/
theorem store_frame_properties :
    (∀ (sim : List ℚ → List ℚ → ℚ) (store : Store) (uid : String)
        (msg : List Char) (qe : Option (List ℚ)),
        (pdf_chat sim store uid msg qe).2 = store) ∧
    (∀ (store : Store) (uid : String) (text : List Char)
        (r : Option (List (List ℚ))) (v : String), v ≠ uid →
        (upload_pdf store uid text r).2 v = store v) ∧
    (∀ (store : Store) (u v : String), v ≠ u → logout store (some u) v = store v) ∧
    (∀ store : Store, logout store none = store) :=
  ⟨pdf_chat_store_eq, upload_pdf_frame, logout_frame, fun _ => rfl⟩

theorem store_frame_properties_witness :
    (pdf_chat simOne tieStore "u" "hi".toList none).2 = tieStore ∧
    (upload_pdf tieStore "u" "hi".toList (some [[1]])).2 "w" = tieStore "w" ∧
    logout tieStore (some "u") "w" = tieStore "w" :=
  ⟨store_frame_properties.1 simOne tieStore "u" "hi".toList none,
    store_frame_properties.2.1 tieStore "u" "hi".toList (some [[1]]) "w" (by decide),
    store_frame_properties.2.2.1 tieStore "u" "w" (by decide)⟩

/-- A request that performs a successful `loadDocument` for `uid`:
an upload by that user with extractable text and a successful, non-empty
embedding response. -/
def uploadSucceedsFor (uid : String) : Op → Prop
  | Op.uploadOp u text (some embs) =>
      u = uid ∧ ¬ text.all Char.isWhitespace = true ∧ embs ≠ []
  | _ => False

theorem step_preserves_no_entry (sim : List ℚ → List ℚ → ℚ) (store : Store)
    (uid : String) (op : Op) (h : store uid = none)
    (hop : ¬ uploadSucceedsFor uid op) : step sim store op uid = none := by
  cases op with
  | uploadOp u text r =>
    show (upload_pdf store u text r).2 uid = none
    by_cases hu : uid = u
    · subst hu
      cases r with
      | none => rw [upload_pdf_failure_store _ _ _ _ (Or.inr (Or.inl rfl))]; exact h
      | some embs =>
        have : text.all Char.isWhitespace = true ∨ embs = [] := by
          by_contra hcon
          push_neg at hcon
          exact hop ⟨rfl, hcon.1, hcon.2⟩
        rcases this with hb | he
        · rw [upload_pdf_failure_store _ _ _ _ (Or.inl hb)]; exact h
        · subst he
          rw [upload_pdf_failure_store _ _ _ _ (Or.inr (Or.inr rfl))]; exact h
    · rw [upload_pdf_frame store u text r uid hu]; exact h
  | chatOp u msg qe =>
    show (pdf_chat sim store u msg qe).2 uid = none
    rw [pdf_chat_store_eq]; exact h
  | logoutOp o => exact logout_preserves_none store o uid h

theorem run_preserves_no_entry (sim : List ℚ → List ℚ → ℚ) (uid : String) :
    ∀ (ops : List Op) (store : Store), store uid = none →
      (∀ op ∈ ops, ¬ uploadSucceedsFor uid op) → run sim store ops uid = none := by
  intro ops
  induction ops with
  | nil => intro store h _; exact h
  | cons op rest ih =>
    intro store h hops
    show run sim (step sim store op) rest uid = none
    exact ih (step sim store op)
      (step_preserves_no_entry sim store uid op h (hops op (List.mem_cons_self op rest)))
      (fun o ho => hops o (List.mem_cons_of_mem op ho))

/-- C7: a user for whom no successful `loadDocument` was ever performed is
still in the Empty state (no entry in `user_pdf_data`) after any sequence
of requests starting from the empty store, and every `pdf_chat` query for
that user then fails with the 400 "Please upload a PDF first" response
(`NoDocumentLoaded`) and returns no chunks. -/
theorem chat_without_upload_noDocument (sim : List ℚ → List ℚ → ℚ)
    (ops : List Op) (uid : String) (msg : List Char) (qe : Option (List ℚ))
    (hops : ∀ op ∈ ops, ¬ uploadSucceedsFor uid op) :
    pdf_chat sim (run sim emptyStore ops) uid msg qe =
      (ChatResp.noDocument, run sim emptyStore ops) := by
  have hnone : run sim emptyStore ops uid = none :=
    run_preserves_no_entry sim uid ops emptyStore rfl hops
  unfold pdf_chat
  rw [hnone]

theorem chat_without_upload_noDocument_witness :
    pdf_chat simOne (run simOne emptyStore [Op.logoutOp (some "w"),
        Op.uploadOp "u" "doc".toList none]) "u" "hi".toList none =
      (ChatResp.noDocument, run simOne emptyStore [Op.logoutOp (some "w"),
        Op.uploadOp "u" "doc".toList none]) :=
  chat_without_upload_noDocument simOne
    [Op.logoutOp (some "w"), Op.uploadOp "u" "doc".toList none]
    "u" "hi".toList none
    (by
      intro op hop
      rcases hop with _ | ⟨_, hop⟩
      · exact fun hfalse => hfalse
      · rcases hop with _ | ⟨_, hop⟩
        · exact fun hfalse => hfalse
        · cases hop)

/-- Contract of the external embedding endpoint on a successful call:
one embedding vector per input chunk (the OpenAI API returns `data` in
one-to-one correspondence with `input`; `get_embeddings` maps it through
`[item.embedding for item in response.data]`). -/
def OpOk : Op → Prop
  | Op.uploadOp _ text (some embs) => embs.length = (pdfChunks text).length
  | _ => True

/-- The invariant of the spec: every entry of `user_pdf_data` has as many
chunks as embedding vectors. -/
def StoreInv (store : Store) : Prop :=
  ∀ (uid : String) (pd : PdfData), store uid = some pd →
    pd.chunks.length = pd.embeddings.length

theorem step_preserves_inv (sim : List ℚ → List ℚ → ℚ) (store : Store) (op : Op)
    (hinv : StoreInv store) (hop : OpOk op) : StoreInv (step sim store op) := by
  cases op with
  | uploadOp u text r =>
    show StoreInv (upload_pdf store u text r).2
    cases r with
    | none =>
      rw [upload_pdf_failure_store _ _ _ _ (Or.inr (Or.inl rfl))]; exact hinv
    | some embs =>
      by_cases hb : text.all Char.isWhitespace = true
      · rw [upload_pdf_failure_store _ _ _ _ (Or.inl hb)]; exact hinv
      · by_cases he : embs = []
        · subst he
          rw [upload_pdf_failure_store _ _ _ _ (Or.inr (Or.inr rfl))]; exact hinv
        · intro uid pd hpd
          have hstore : (upload_pdf store u text (some embs)).2 uid =
              if uid = u then some ⟨pdfChunks text, embs, true⟩ else store uid := by
            unfold upload_pdf
            rw [if_neg hb]
            simp only []
            rw [if_neg he]
          rw [hstore] at hpd
          by_cases hu : uid = u
          · rw [if_pos hu] at hpd
            cases hpd
            exact (hop : embs.length = (pdfChunks text).length).symm
          · rw [if_neg hu] at hpd
            exact hinv uid pd hpd
  | chatOp u msg qe =>
    show StoreInv (pdf_chat sim store u msg qe).2
    rw [pdf_chat_store_eq]; exact hinv
  | logoutOp o =>
    intro uid pd hpd
    show pd.chunks.length = pd.embeddings.length
    cases o with
    | none => exact hinv uid pd hpd
    | some u =>
      unfold step logout at hpd
      simp only [] at hpd
      by_cases he : u = ""
      · rw [if_pos he] at hpd; exact hinv uid pd hpd
      · rw [if_neg he] at hpd
        by_cases hu : uid = u
        · rw [if_pos hu] at hpd; cases hpd
        · rw [if_neg hu] at hpd; exact hinv uid pd hpd

theorem run_preserves_inv (sim : List ℚ → List ℚ → ℚ) :
    ∀ (ops : List Op) (store : Store), StoreInv store →
      (∀ op ∈ ops, OpOk op) → StoreInv (run sim store ops) := by
  intro ops
  induction ops with
  | nil => intro store h _; exact h
  | cons op rest ih =>
    intro store h hops
    show StoreInv (run sim (step sim store op) rest)
    exact ih (step sim store op)
      (step_preserves_inv sim store op h (hops op (List.mem_cons_self op rest)))
      (fun o ho => hops o (List.mem_cons_of_mem op ho))

/-- C9: in every state reachable from the initial empty `user_pdf_data`
by any sequence of uploads, queries and logouts — with the embedding
endpoint returning one vector per chunk on success, its documented
behaviour — every user entry satisfies `len(chunks) == len(vectors)`. -/
theorem reachable_store_length_invariant (sim : List ℚ → List ℚ → ℚ)
    (ops : List Op) (hops : ∀ op ∈ ops, OpOk op) :
    StoreInv (run sim emptyStore ops) :=
  run_preserves_inv sim ops emptyStore (fun _ _ h => Option.noConfusion h) hops

theorem reachable_store_length_invariant_witness :
    StoreInv (run simOne emptyStore
      [Op.uploadOp "u" "hello world".toList (some [[1]]),
        Op.chatOp "u" "hi".toList (some [1]),
        Op.logoutOp (some "u")]) :=
  reachable_store_length_invariant simOne
    [Op.uploadOp "u" "hello world".toList (some [[1]]),
      Op.chatOp "u" "hi".toList (some [1]),
      Op.logoutOp (some "u")]
    (by
      intro op hop
      rcases hop with _ | ⟨_, hop⟩
      · show ([[(1 : ℚ)]]).length = (pdfChunks "hello world".toList).length
        decide
      · rcases hop with _ | ⟨_, hop⟩
        · trivial
        · rcases hop with _ | ⟨_, hop⟩
          · trivial
          · cases hop)

theorem upload_pdf_success_entry (store : Store) (uid : String) (text : List Char)
    (embs : List (List ℚ)) (hb : ¬ text.all Char.isWhitespace = true)
    (hne : embs ≠ []) :
    (upload_pdf store uid text (some embs)).2 uid =
      some ⟨pdfChunks text, embs, true⟩ := by
  unfold upload_pdf
  rw [if_neg hb]
  simp only []
  rw [if_neg hne]
  exact if_pos rfl

theorem retrieve_subset_of_entry (sim : List ℚ → List ℚ → ℚ) (store : Store)
    (uid : String) (qe : Option (List ℚ)) (k : Nat) (pd : PdfData)
    (hentry : store uid = some pd) (hlen : pd.embeddings.length = pd.chunks.length)
    (c : List Char) (hc : c ∈ retrieve_relevant_chunks sim store uid qe k) :
    c ∈ pd.chunks := by
  simp only [retrieve_relevant_chunks, hentry] at hc
  by_cases hguard : pd.loaded = false ∨ pd.embeddings.length = 0
  · rw [if_pos hguard] at hc
    cases hc
  · rw [if_neg hguard] at hc
    cases qe with
    | none => cases hc
    | some q =>
      simp only [List.mem_map] at hc
      obtain ⟨i, hi, rfl⟩ := hc
      have hilt : i < pd.chunks.length := by
        have := mem_topK_lt (pd.embeddings.map (sim q)) k i hi
        rw [List.length_map] at this
        omega
      exact getD_mem_of_lt pd.chunks i [] hilt

/-- C8: a successful upload fully replaces the user's retrieval index:
afterwards the stored entry is exactly the new chunks with the new
embedding vectors, and every chunk any subsequent `retrieve_relevant_chunks`
returns for that user is a chunk of the new document — none can come from
a previously stored one. -/
theorem upload_success_replaces_index (store : Store) (uid : String)
    (text : List Char) (embs : List (List ℚ))
    (hb : ¬ text.all Char.isWhitespace = true) (hne : embs ≠ [])
    (hlen : embs.length = (pdfChunks text).length) :
    (upload_pdf store uid text (some embs)).2 uid =
      some ⟨pdfChunks text, embs, true⟩ ∧
    ∀ (sim : List ℚ → List ℚ → ℚ) (qe : Option (List ℚ)) (k : Nat) (c : List Char),
      c ∈ retrieve_relevant_chunks sim (upload_pdf store uid text (some embs)).2
        uid qe k →
      c ∈ pdfChunks text := by
  have hentry := upload_pdf_success_entry store uid text embs hb hne
  refine ⟨hentry, ?_⟩
  intro sim qe k c hc
  exact retrieve_subset_of_entry sim (upload_pdf store uid text (some embs)).2
    uid qe k ⟨pdfChunks text, embs, true⟩ hentry hlen c hc

theorem upload_success_replaces_index_witness :
    (upload_pdf tieStore "u" "new doc".toList (some [[5]])).2 "u" =
      some ⟨pdfChunks "new doc".toList, [[5]], true⟩ ∧
    ∀ (sim : List ℚ → List ℚ → ℚ) (qe : Option (List ℚ)) (k : Nat) (c : List Char),
      c ∈ retrieve_relevant_chunks sim
        (upload_pdf tieStore "u" "new doc".toList (some [[5]])).2 "u" qe k →
      c ∈ pdfChunks "new doc".toList :=
  upload_success_replaces_index tieStore "u" "new doc".toList [[5]]
    (by decide) (by decide) (by decide)
